import Mathlib

/-!
Verification of the LelyIntegration CANopen master layer
(MotorDriver / DCFDriver / DCFConfigMaster).

The definitions below are a shallow embedding of the C++ sources:
machine integers are modelled as `Nat` (bit operations via `&&&`, `|||`),
fallible operations return `Except`/`Option`, and the asynchronous
SDO-callback pipelines of the configuration engine are modelled as
sequential computations that record the issued bus operations in a trace.
-/

namespace LelyExt

/-! ### CiA-402 motor state machine (MotorDriver.h / MotorDriver.cpp) -/

/-- Internal driver state, `MotorDriver::State` (MotorDriver.h). -/
inductive State where
  | INITIAL_STATE
  | INITIAL_POWER_ON
  | INITIAL_POWER_OFF
  | CYCLE_POWER_SHUTDOWN
  | POWER_ON_DISABLE_OPERATION
  | IDLE
  | PREPARE_MOVE
  | READY_TO_MOVE
  | MOVING
  | PREPARE_HOMING
  | READY_FOR_HOMING
  | HOMING
  | FAULT_STATE
  | FAULT_RESET
  | NODE_RESET
deriving DecidableEq

open State

/-- `MotorDriver::StatusWordFlags` (MotorDriver.h). -/
def READY_TO_SWITCH_ON : Nat := 0x0001
def SWITCHED_ON : Nat := 0x0002
def OPERATION_ENABLED : Nat := 0x0004
def FAULT : Nat := 0x0008
def VOLTAGE_ENABLED : Nat := 0x0010
def MANUFACTURER_SPECIFIC1 : Nat := 0x0100
def TARGET_REACHED : Nat := 0x0400
def OPERATION_MODE_SPECIFIC1 : Nat := 0x1000
def OPERATION_MODE_SPECIFIC2 : Nat := 0x2000

/-- The C++ test `statusWord & flag` used in the status-word conditions. -/
abbrev testFlag (statusWord flag : Nat) : Prop := statusWord &&& flag ≠ 0

/-- `MotorDriver::determineStateFromStatusWord` (MotorDriver.cpp lines 489-600),
translated branch for branch; `diag` logging has no effect and is dropped.
The node ID parameter is only used for logging in the source. -/
def determineStateFromStatusWord (currentState : State) (statusWord : Nat) (nodeID : Nat) :
    State :=
  if testFlag statusWord FAULT then
    FAULT_STATE
  else if testFlag statusWord READY_TO_SWITCH_ON ∧ ¬ testFlag statusWord SWITCHED_ON ∧
      ¬ testFlag statusWord OPERATION_ENABLED then
    -- drive switched off
    if currentState = INITIAL_STATE then INITIAL_POWER_OFF
    else POWER_ON_DISABLE_OPERATION
  else if currentState = INITIAL_STATE then
    INITIAL_POWER_ON
  else if testFlag statusWord READY_TO_SWITCH_ON ∧ testFlag statusWord SWITCHED_ON ∧
      testFlag statusWord VOLTAGE_ENABLED then
    -- drive switched on
    if ¬ testFlag statusWord OPERATION_ENABLED then
      if currentState = POWER_ON_DISABLE_OPERATION then IDLE
      else if currentState = FAULT_STATE ∧ ¬ testFlag statusWord MANUFACTURER_SPECIFIC1 then
        FAULT_RESET
      else if currentState = FAULT_RESET ∧ ¬ testFlag statusWord MANUFACTURER_SPECIFIC1 then
        CYCLE_POWER_SHUTDOWN
      else currentState
    else
      if currentState = PREPARE_HOMING then READY_FOR_HOMING
      else if currentState = READY_FOR_HOMING ∧ ¬ testFlag statusWord TARGET_REACHED ∧
          ¬ testFlag statusWord OPERATION_MODE_SPECIFIC1 ∧
          ¬ testFlag statusWord OPERATION_MODE_SPECIFIC2 then HOMING
      else if currentState = HOMING ∧ testFlag statusWord TARGET_REACHED then
        if testFlag statusWord OPERATION_MODE_SPECIFIC1 then POWER_ON_DISABLE_OPERATION
        else if testFlag statusWord OPERATION_MODE_SPECIFIC2 then FAULT_STATE
        else currentState
      else if currentState = PREPARE_MOVE ∧ testFlag statusWord OPERATION_MODE_SPECIFIC1 then
        READY_TO_MOVE
      else if currentState = READY_TO_MOVE ∧ ¬ testFlag statusWord TARGET_REACHED ∧
          ¬ testFlag statusWord OPERATION_MODE_SPECIFIC1 then MOVING
      else if currentState = MOVING ∧ testFlag statusWord TARGET_REACHED then
        POWER_ON_DISABLE_OPERATION
      else currentState
  else
    currentState

/-- Spec §4.3: "switched-off branch" — READY_TO_SWITCH_ON without SWITCHED_ON and
without OPERATION_ENABLED. -/
abbrev switchedOffBranch (sw : Nat) : Prop :=
  testFlag sw READY_TO_SWITCH_ON ∧ ¬ testFlag sw SWITCHED_ON ∧ ¬ testFlag sw OPERATION_ENABLED

/-- Spec §4.3: "switched-on branch" — the READY+SWITCHED+VOLTAGE triple. -/
abbrev switchedOnBranch (sw : Nat) : Prop :=
  testFlag sw READY_TO_SWITCH_ON ∧ testFlag sw SWITCHED_ON ∧ testFlag sw VOLTAGE_ENABLED

/-- The admissible transitions of the spec transition table (spec §4.3),
one disjunct per table row, written from the spec wording. -/
def specAdmissibleTransition (current : State) (sw : Nat) : Prop :=
  testFlag sw FAULT
  ∨ (current = INITIAL_STATE ∧ switchedOffBranch sw)
  ∨ (current = INITIAL_STATE ∧ ¬ testFlag sw FAULT ∧ ¬ switchedOffBranch sw)
  ∨ (current ≠ INITIAL_STATE ∧ switchedOffBranch sw)
  ∨ (current = POWER_ON_DISABLE_OPERATION ∧ switchedOnBranch sw ∧
      ¬ testFlag sw OPERATION_ENABLED)
  ∨ (current = FAULT_STATE ∧ switchedOnBranch sw ∧ ¬ testFlag sw OPERATION_ENABLED ∧
      ¬ testFlag sw MANUFACTURER_SPECIFIC1)
  ∨ (current = FAULT_RESET ∧ switchedOnBranch sw ∧ ¬ testFlag sw OPERATION_ENABLED ∧
      ¬ testFlag sw MANUFACTURER_SPECIFIC1)
  ∨ (current = PREPARE_HOMING ∧ testFlag sw OPERATION_ENABLED)
  ∨ (current = READY_FOR_HOMING ∧ testFlag sw OPERATION_ENABLED ∧
      ¬ testFlag sw TARGET_REACHED ∧ ¬ testFlag sw OPERATION_MODE_SPECIFIC1 ∧
      ¬ testFlag sw OPERATION_MODE_SPECIFIC2)
  ∨ (current = HOMING ∧ testFlag sw OPERATION_ENABLED ∧ testFlag sw TARGET_REACHED ∧
      testFlag sw OPERATION_MODE_SPECIFIC1)
  ∨ (current = HOMING ∧ testFlag sw OPERATION_ENABLED ∧ testFlag sw TARGET_REACHED ∧
      testFlag sw OPERATION_MODE_SPECIFIC2)
  ∨ (current = PREPARE_MOVE ∧ testFlag sw OPERATION_ENABLED ∧
      testFlag sw OPERATION_MODE_SPECIFIC1)
  ∨ (current = READY_TO_MOVE ∧ testFlag sw OPERATION_ENABLED ∧
      ¬ testFlag sw TARGET_REACHED ∧ ¬ testFlag sw OPERATION_MODE_SPECIFIC1)
  ∨ (current = MOVING ∧ testFlag sw OPERATION_ENABLED ∧ testFlag sw TARGET_REACHED)

set_option maxRecDepth 4000 in
set_option synthInstance.maxSize 4000 in
set_option synthInstance.maxHeartbeats 1000000 in
instance (current : State) (sw : Nat) : Decidable (specAdmissibleTransition current sw) := by
  unfold specAdmissibleTransition
  infer_instance

/-- Claim C1: for every current state and node ID, and every 16-bit status word
whose FAULT bit (0x0008) is set, `determineStateFromStatusWord` returns
`FAULT_STATE`. -/
theorem C1_fault_bit_forces_fault_state (current : State) (sw nodeID : Nat)
    (hsw : sw < 65536) (hfault : sw &&& FAULT ≠ 0) :
    determineStateFromStatusWord current sw nodeID = FAULT_STATE := by
  unfold determineStateFromStatusWord
  rw [if_pos hfault]

theorem C1_witness :
    (8 < 65536 ∧ (8 : Nat) &&& FAULT ≠ 0) ∧
      determineStateFromStatusWord IDLE 8 1 = FAULT_STATE :=
  ⟨⟨by decide, by decide⟩, C1_fault_bit_forces_fault_state IDLE 8 1 (by decide) (by decide)⟩

/-- Claim C2: `determineStateFromStatusWord` is a deterministic total function:
it is a pure Lean function of (current, status word, node ID) and its result
does not depend on the node ID; any input matching none of the admissible
transitions of the spec transition table returns the current state unchanged. -/
theorem C2_pure_total_and_table_closed (current : State) (sw n₁ n₂ : Nat) :
    determineStateFromStatusWord current sw n₁ = determineStateFromStatusWord current sw n₂ ∧
      (¬ specAdmissibleTransition current sw →
        determineStateFromStatusWord current sw n₁ = current) := by
  refine ⟨rfl, fun h => ?_⟩
  simp only [specAdmissibleTransition, not_or] at h
  obtain ⟨h1, h2, h3, h4, h5, h6, h7, h8, h9, h10, h11, h12, h13, h14⟩ := h
  have hso : ¬ switchedOffBranch sw := by
    by_cases hini : current = INITIAL_STATE
    · exact fun hs => h2 ⟨hini, hs⟩
    · exact fun hs => h4 ⟨hini, hs⟩
  have hini : current ≠ INITIAL_STATE := fun he => h3 ⟨he, h1, hso⟩
  unfold determineStateFromStatusWord
  rw [if_neg h1, if_neg hso, if_neg hini]
  by_cases hon : switchedOnBranch sw
  · rw [if_pos hon]
    by_cases hop : testFlag sw OPERATION_ENABLED
    · rw [if_neg (not_not_intro hop)]
      rw [if_neg (fun he => h8 ⟨he, hop⟩)]
      rw [if_neg (fun hc : _ ∧ _ ∧ _ ∧ _ => h9 ⟨hc.1, hop, hc.2.1, hc.2.2.1, hc.2.2.2⟩)]
      by_cases hhom : current = HOMING ∧ testFlag sw TARGET_REACHED
      · rw [if_pos hhom]
        rw [if_neg (fun ho => h10 ⟨hhom.1, hop, hhom.2, ho⟩)]
        rw [if_neg (fun ho => h11 ⟨hhom.1, hop, hhom.2, ho⟩)]
      · rw [if_neg hhom]
        rw [if_neg (fun hc : _ ∧ _ => h12 ⟨hc.1, hop, hc.2⟩)]
        rw [if_neg (fun hc : _ ∧ _ ∧ _ => h13 ⟨hc.1, hop, hc.2.1, hc.2.2⟩)]
        rw [if_neg (fun hc : _ ∧ _ => h14 ⟨hc.1, hop, hc.2⟩)]
    · rw [if_pos hop]
      rw [if_neg (fun he => h5 ⟨he, hon, hop⟩)]
      rw [if_neg (fun hc : _ ∧ _ => h6 ⟨hc.1, hon, hop, hc.2⟩)]
      rw [if_neg (fun hc : _ ∧ _ => h7 ⟨hc.1, hon, hop, hc.2⟩)]
  · rw [if_neg hon]

theorem C2_witness :
    determineStateFromStatusWord IDLE 0 1 = determineStateFromStatusWord IDLE 0 2 ∧
      determineStateFromStatusWord IDLE 0 1 = IDLE :=
  ⟨(C2_pure_total_and_table_closed IDLE 0 1 2).1,
    (C2_pure_total_and_table_closed IDLE 0 1 2).2 (by decide)⟩

/-! ### Status-word handling of a MotorDriver (MotorDriver.cpp lines 423-487)

The model keeps the fields of `MotorDriver` that `handleStatusWordChange`
reads and writes.  `setState` additionally triggers per-state effects
(control-word writes, callback draining); those effects do not touch the
state slots modelled here, so `setState` is modelled by its state-slot
assignment `m_state = newState` (identical whether or not the guard
`m_state != newState` fires). -/

/-- The state slots of a `MotorDriver` (MotorDriver.h lines 272-279 plus the
follower IDs from DCFDriver.h), with their constructor-time initial values in
`initialMotorDriver`. -/
structure MotorDriverState where
  id : Nat
  followingNodeID : Nat
  followsNodeID : Nat
  mainNodeState : State
  followingNodeState : State
  state : State
  statusWord : Nat
deriving DecidableEq

/-- Field initial values: `m_mainNodeState = IDLE`, `m_followingNodeState = IDLE`,
`m_state = INITIAL_STATE`, `m_statusWord = 0` (MotorDriver.h), follower IDs 0
(DCFDriver constructor). -/
def initialMotorDriver (nodeID : Nat) : MotorDriverState :=
  { id := nodeID, followingNodeID := 0, followsNodeID := 0,
    mainNodeState := IDLE, followingNodeState := IDLE,
    state := INITIAL_STATE, statusWord := 0 }

/-- The lambda `isRelevantStateForFollowerRelationship` in
`MotorDriver::handleStatusWordChange`. -/
abbrev isRelevantStateForFollowerRelationship (s : State) : Prop :=
  s = PREPARE_MOVE ∨ s = READY_TO_MOVE ∨ s = MOVING ∨ s = IDLE

/-- `MotorDriver::handleStatusWordChange` (MotorDriver.cpp lines 423-487),
restricted to its updates of the state slots. -/
def handleStatusWordChange (md : MotorDriverState) (statusWord : Nat)
    (statusWordOfFollowerChanged : Bool) : MotorDriverState :=
  let md := if statusWordOfFollowerChanged = false then
      { md with statusWord := statusWord } else md
  if md.followsNodeID = 0 then
    if md.followingNodeID = 0 then
      -- no follower (fault handling is done in setState)
      { md with state := determineStateFromStatusWord md.state statusWord md.id }
    else
      -- aggregate the state from the main motor and the following motor
      let md :=
        if statusWordOfFollowerChanged = false then
          { md with mainNodeState :=
              determineStateFromStatusWord md.mainNodeState statusWord md.id }
        else
          { md with followingNodeState :=
              determineStateFromStatusWord md.followingNodeState statusWord md.followingNodeID }
      if (md.mainNodeState = READY_TO_MOVE ∧ md.followingNodeState = READY_TO_MOVE) ∧
          md.state = PREPARE_MOVE then
        { md with state := READY_TO_MOVE }
      else if (md.mainNodeState = MOVING ∨ md.followingNodeState = MOVING) ∧
          md.state = READY_TO_MOVE then
        { md with state := MOVING }
      else if (md.mainNodeState = IDLE ∧ md.followingNodeState = IDLE) ∧
          md.state = POWER_ON_DISABLE_OPERATION then
        { md with state := IDLE }
      else if statusWordOfFollowerChanged = false ∧
          ¬ isRelevantStateForFollowerRelationship md.mainNodeState then
        { md with state := md.mainNodeState }
      else md
  else
    if statusWordOfFollowerChanged = false then
      -- the local state machine of a follower
      let nextState := determineStateFromStatusWord md.state statusWord md.id
      if ¬ isRelevantStateForFollowerRelationship nextState ∨
          (md.state = POWER_ON_DISABLE_OPERATION ∧ nextState = IDLE) then
        { md with state := nextState }
      else md
    else md

/-- Claim C5 evaluation: a `MotorDriver` with no follower
(`m_followsNodeID = 0`, `m_followingNodeID = 0`) receives status word 0x0008;
the aggregate slot `m_state` becomes `FAULT_STATE` while `m_mainNodeState`
stays at its initial value `IDLE` — the code never updates the main-node slot
in the no-follower branch, contradicting the claim and the documentation of
`m_state` in MotorDriver.h line 276. -/
theorem C5_main_slot_left_behind_without_follower :
    (handleStatusWordChange (initialMotorDriver 2) 0x0008 false).state = FAULT_STATE ∧
      (handleStatusWordChange (initialMotorDriver 2) 0x0008 false).mainNodeState = IDLE ∧
      FAULT_STATE ≠ IDLE := by
  refine ⟨?_, rfl, by decide⟩
  rfl

/-! ### Motor fault surfacing and EMCY dedup
(MotorDriver.cpp lines 717-746, DCFDriver.cpp lines 424-447) -/

/-- The error-callback invocation made by `MotorDriver::handleFault`. -/
inductive FaultCallback where
  | motorFault (code : Nat)
  | readErrorFailed
deriving DecidableEq

/-- `MotorDriver::handleFault` (MotorDriver.cpp lines 717-746) with an installed
error callback.  The first component records whether the read of OD 0x603F:0
was submitted; the second the error-callback invocation performed by the read
completion (`faultRegisterRead` is the completion result: an error code or the
register value). -/
def handleFault (emergencyOccured : Bool) (faultRegisterRead : Except Nat Nat) :
    Bool × Option FaultCallback :=
  if emergencyOccured = false then
    (true,
      match faultRegisterRead with
      | .ok v => if v ≠ 0 then some (.motorFault v) else none
      | .error _ => some .readErrorFailed)
  else
    (false, none)

/-- `DCFDriver::OnEmcy` (DCFDriver.cpp lines 424-447) with an installed error
callback: returns the new `m_emergencyOccured` latch and whether the error
callback was invoked. -/
def OnEmcy (emergencyErrorCode : Nat) : Bool × Bool :=
  let emergencyOccured := emergencyErrorCode != 0
  (emergencyOccured, emergencyOccured)

/-- Claim C10 counterexample: with the emergency latch clear and the fault
register reading 0, the read of 0x603F:0 is issued but the error callback is
not invoked, refuting "surfaces the fault via the error callback if and only
if the per-driver emergency latch is clear". -/
theorem C10_counterexample_zero_fault_register :
    (handleFault false (.ok 0)).1 = true ∧ (handleFault false (.ok 0)).2 = none := by
  exact ⟨rfl, rfl⟩

/-- Claim C10 (amended): on entering FAULT_STATE from a non-initial state,
`handleFault` reads OD 0x603F:0 iff the emergency latch is clear, and invokes
the error callback iff the latch is clear and the read failed or returned a
non-zero code; an EMCY frame with code 0 clears the latch and does not invoke
the callback, and the EMCY handler invokes the callback exactly for non-zero
codes. -/
theorem C10_fault_dedup_amended (emergencyOccured : Bool) (r : Except Nat Nat) (code : Nat) :
    ((handleFault emergencyOccured r).1 = true ↔ emergencyOccured = false) ∧
      ((handleFault emergencyOccured r).2.isSome = true ↔
        (emergencyOccured = false ∧ ∀ v, r = .ok v → v ≠ 0)) ∧
      ((OnEmcy code).1 = false ↔ code = 0) ∧
      ((OnEmcy code).2 = true ↔ code ≠ 0) := by
  refine ⟨?_, ?_, ?_, ?_⟩
  · cases emergencyOccured <;> simp [handleFault]
  · cases emergencyOccured <;> cases r <;> simp [handleFault]
  · simp [OnEmcy]
  · simp [OnEmcy]

/-! ### DCF configuration engine (DCFDriver.cpp lines 48-345)

The C++ engine is a chain of asynchronous SDO operations, each continuation
fired by the completion callback of the previous operation.  The model runs
the same chain sequentially: every engine function returns the list of bus
SDO operations it issued (in issue order) together with its completion
result.  Reads of the local object dictionary, the declared object types and
the completion results of remote operations are supplied by a `ConfigEnv`. -/

/-- A bus-level SDO operation issued by the configuration engine. -/
inductive SdoOp where
  | readRemote (index subIndex : Nat)
  | writeRemote (index subIndex value : Nat)
  | writeDcf
deriving DecidableEq

/-- `DCFDriver::ConfigErrorCategory::Step` (DCFDriver.h). -/
inductive ConfigStep where
  | READ_LOCAL_VALUE
  | READ_REMOTE_SDO
  | WRITE_REMOTE_SDO
deriving DecidableEq

/-- `DCFDriver::ConfigErrorCategory` (DCFDriver.h lines 128-161): the context
attached to a configuration error. -/
structure ConfigErrorCategory where
  step : ConfigStep
  index : Nat
  subIndex : Nat
  originalErrorCode : Nat
deriving DecidableEq

/-- Result of an engine computation: issued bus operations plus completion. -/
abbrev ConfigM (α : Type) := List SdoOp × Except ConfigErrorCategory α

def pureM {α : Type} (a : α) : ConfigM α := ([], .ok a)

/-- Sequencing of two engine steps: the second step starts only after the
first completed successfully; a failing step aborts with its own error. -/
def bindM {α β : Type} (x : ConfigM α) (f : α → ConfigM β) : ConfigM β :=
  match x with
  | (t, .ok a) => (t ++ (f a).1, (f a).2)
  | (t, .error e) => (t, .error e)

/-- External collaborators of the engine: `m_config->Read` (local dictionary
value or error code), `m_config->getTypeOfObject`, and the completion results
of `SubmitRead` / `SubmitWrite` on the remote node (for a write, `none` means
success, `some ec` the failing error code). -/
structure ConfigEnv where
  localRead : Nat → Nat → Except Nat Nat
  getTypeOfObject : Nat → Nat → Nat
  remoteRead : Nat → Nat → Except Nat Nat
  remoteWrite : Nat → Nat → Nat → Option Nat

/-- `StandardSDO` (DCFDriver.h). -/
def RECEIVE_PDO_CONTROL_START : Nat := 0x1400
def RECEIVE_PDO_CONTROL_END : Nat := 0x15FF
def RECEIVE_PDO_MAPPING_START : Nat := 0x1600
def TRANSMIT_PDO_CONTROL_START : Nat := 0x1800
def TRANSMIT_PDO_CONTROL_END : Nat := 0x19FF
def TRANSMIT_PDO_MAPPING_END : Nat := 0x1BFF

/-- CANopen basic type codes (lely co/type.h). -/
def CO_DEFTYPE_BOOLEAN : Nat := 0x0001
def CO_DEFTYPE_INTEGER8 : Nat := 0x0002
def CO_DEFTYPE_INTEGER16 : Nat := 0x0003
def CO_DEFTYPE_INTEGER32 : Nat := 0x0004
def CO_DEFTYPE_UNSIGNED8 : Nat := 0x0005
def CO_DEFTYPE_UNSIGNED16 : Nat := 0x0006
def CO_DEFTYPE_UNSIGNED32 : Nat := 0x0007

/-- `lely::canopen::SdoErrc::DATA` — "Data cannot be transferred or stored". -/
def SDO_ERRC_DATA : Nat := 0x08000020

/-- The types handled by the `switch` in `DCFDriver::configureParameterSDO`. -/
abbrev supportedCanopenType (t : Nat) : Prop :=
  t = CO_DEFTYPE_BOOLEAN ∨ t = CO_DEFTYPE_INTEGER8 ∨ t = CO_DEFTYPE_INTEGER16 ∨
    t = CO_DEFTYPE_INTEGER32 ∨ t = CO_DEFTYPE_UNSIGNED8 ∨ t = CO_DEFTYPE_UNSIGNED16 ∨
    t = CO_DEFTYPE_UNSIGNED32

/-- `copyObject` (DCFDriver.cpp lines 128-153): read the value from the local
dictionary, write it to the remote node.  Local read errors 0x06020000 and
0x06090011 are ignored when `ignoreMissingSourceSDO` is set.  In the source,
errors go to `onErrorFunction` when it is non-null and to
`onCompletedFunction` otherwise; both routes abort the caller chain, which
the model expresses by the single error result. -/
def copyObject (env : ConfigEnv) (index subIndex : Nat) (ignoreMissingSourceSDO : Bool) :
    ConfigM Unit :=
  match env.localRead index subIndex with
  | .error ec =>
    if ignoreMissingSourceSDO = true ∧ (ec = 0x6020000 ∨ ec = 0x6090011) then
      pureM ()
    else
      ([], .error ⟨.READ_LOCAL_VALUE, index, subIndex, ec⟩)
  | .ok value =>
    match env.remoteWrite index subIndex value with
    | none => ([.writeRemote index subIndex value], .ok ())
    | some ec => ([.writeRemote index subIndex value],
        .error ⟨.WRITE_REMOTE_SDO, index, subIndex, ec⟩)

/-- `setObject` (DCFDriver.cpp lines 155-168): write a fixed value to the
remote node. -/
def setObject (env : ConfigEnv) (index subIndex value : Nat) : ConfigM Unit :=
  match env.remoteWrite index subIndex value with
  | none => ([.writeRemote index subIndex value], .ok ())
  | some ec => ([.writeRemote index subIndex value],
      .error ⟨.WRITE_REMOTE_SDO, index, subIndex, ec⟩)

/-- The `SubmitRead` step opening `DCFDriver::configurePDO`. -/
def readRemoteSdo (env : ConfigEnv) (index subIndex : Nat) : ConfigM Nat :=
  match env.remoteRead index subIndex with
  | .ok v => ([.readRemote index subIndex], .ok v)
  | .error ec => ([.readRemote index subIndex], .error ⟨.READ_REMOTE_SDO, index, subIndex, ec⟩)

/-- One sub-index of `DCFDriver::configureParameterSDO` (DCFDriver.cpp lines
313-344): dispatch on the OD-declared type; unsupported types abort with
`SdoErrc::DATA` in a `WRITE_REMOTE_SDO` context without issuing any SDO. -/
def configureParameterSub (env : ConfigEnv) (index subIndex : Nat) : ConfigM Unit :=
  if supportedCanopenType (env.getTypeOfObject index subIndex) then
    copyObject env index subIndex false
  else
    ([], .error ⟨.WRITE_REMOTE_SDO, index, subIndex, SDO_ERRC_DATA⟩)

/-- `DCFDriver::configureParameterSDO` iterating the given sub-indices
(the `writeResultHandler` recursion, with the step to the next object left to
the caller as in the `iterateSubIndicesOnly` mode). -/
def configureParameterSDO (env : ConfigEnv) (index : Nat) : List Nat → ConfigM Unit
  | [] => pureM ()
  | subIndex :: rest =>
    bindM (configureParameterSub env index subIndex) fun _ =>
      configureParameterSDO env index rest

/-- The `writeMappings` lambda of `DCFDriver::configurePDO` (DCFDriver.cpp
lines 173-209): look up the mapping object in `m_sdosToConfigure`; write all
its sub-indices but the first, then commit by copying sub-index 0. -/
def writeMappings (env : ConfigEnv) (sdosToConfigure : List (Nat × List Nat))
    (pdoMappingIndex : Nat) : ConfigM Unit :=
  match sdosToConfigure.find? (fun sdo => sdo.1 == pdoMappingIndex) with
  | none => pureM ()
  | some mappingSDO =>
    let mappingIndices := mappingSDO.2
    if mappingIndices.length > 1 then
      bindM (configureParameterSDO env pdoMappingIndex (mappingIndices.drop 1)) fun _ =>
        copyObject env pdoMappingIndex 0 false
    else if mappingIndices.length > 0 then
      copyObject env pdoMappingIndex 0 false
    else
      pureM ()

/-- `DCFDriver::configurePDO` (DCFDriver.cpp lines 171-251) for the control
object at `index`, mapping object at `index + 0x200`. -/
def configurePDO (env : ConfigEnv) (sdosToConfigure : List (Nat × List Nat)) (index : Nat) :
    ConfigM Unit :=
  bindM (readRemoteSdo env index 1) fun valueFromDevice =>
  bindM (setObject env index 1 (valueFromDevice ||| 0x80000000)) fun _ =>
  bindM (copyObject env index 2 false) fun _ =>
  bindM (copyObject env index 3 true) fun _ =>
  bindM (setObject env (index + 0x200) 0 0) fun _ =>
  bindM (writeMappings env sdosToConfigure (index + 0x200)) fun _ =>
  copyObject env index 1 false

/-- `DCFDriver::configureSDO` (DCFDriver.cpp lines 94-126): dispatch on the
index range and recurse over the remaining objects.  For RPDO control objects
the source additionally runs `configureFollowerRelationship`, which issues no
SDO traffic; it is modelled separately below. -/
def configureSDO (env : ConfigEnv) (sdosToConfigure : List (Nat × List Nat)) :
    List (Nat × List Nat) → ConfigM Unit
  | [] => pureM ()
  | objectToSend :: rest =>
    let index := objectToSend.1
    if RECEIVE_PDO_CONTROL_START ≤ index ∧ index ≤ RECEIVE_PDO_CONTROL_END then
      bindM (configurePDO env sdosToConfigure index) fun _ =>
        configureSDO env sdosToConfigure rest
    else if TRANSMIT_PDO_CONTROL_START ≤ index ∧ index ≤ TRANSMIT_PDO_CONTROL_END then
      bindM (configurePDO env sdosToConfigure index) fun _ =>
        configureSDO env sdosToConfigure rest
    else if RECEIVE_PDO_MAPPING_START ≤ index ∧ index ≤ TRANSMIT_PDO_MAPPING_END then
      -- mappings are handled by the PDO control functions above
      configureSDO env sdosToConfigure rest
    else
      bindM (configureParameterSDO env index objectToSend.2) fun _ =>
        configureSDO env sdosToConfigure rest

/-- `DCFDriver::configure` (DCFDriver.cpp lines 81-92). -/
def configure (env : ConfigEnv) (sdosToConfigure : List (Nat × List Nat)) : ConfigM Unit :=
  if sdosToConfigure.length > 0 then
    configureSDO env sdosToConfigure sdosToConfigure
  else
    pureM ()

/-- Overall result of `DCFDriver::OnConfig`: a configuration error, the error
returned by the clear-configuration strategy, or a binary-DCF download
error. -/
inductive OverallError where
  | config (e : ConfigErrorCategory)
  | clearConfig (ec : Nat)
  | dcfDownload (ec : Nat)
deriving DecidableEq

/-- `std::errc::operation_canceled` (POSIX `ECANCELED`). -/
def operation_canceled : Nat := 125

/-- `DCFDriver::OnConfig` (DCFDriver.cpp lines 48-79).
`clearConfigurationStrategy` is `none` when no strategy is installed and
`some ec` for an installed strategy completing with code `ec` (0 = success);
`dcfDownloadResult` is the completion code of `SubmitWriteDcf`. -/
def OnConfig (env : ConfigEnv) (sdosToConfigure : List (Nat × List Nat))
    (clearConfigurationStrategy : Option Nat) (hasBinaryDcfFile : Bool)
    (dcfDownloadResult : Nat) : List SdoOp × Except OverallError Unit :=
  match clearConfigurationStrategy with
  | none =>
    -- no strategy: configure directly (the lely base master performs any
    -- binary-DCF download itself in this case)
    match configure env sdosToConfigure with
    | (t, .ok _) => (t, .ok ())
    | (t, .error e) => (t, .error (.config e))
  | some ec =>
    if ec = operation_canceled then
      ([], .ok ())  -- cancel configuration without an error
    else if ec ≠ 0 then
      ([], .error (.clearConfig ec))  -- no configuration, just report
    else
      match configure env sdosToConfigure with
      | (t, .ok _) =>
        if hasBinaryDcfFile = true then
          if dcfDownloadResult = 0 then (t ++ [.writeDcf], .ok ())
          else (t ++ [.writeDcf], .error (.dcfDownload dcfDownloadResult))
        else (t, .ok ())
      | (t, .error e) => (t, .error (.config e))

/-- Modelled from the spec: the eight-step PDO activation protocol of
spec §4.1, written as a linear sequence — read remote `I:1`, disable the PDO,
copy transmission type, copy inhibit time (missing source ignored), clear the
remote mapping count, copy the mapping sub-indices above 0, commit the
mapping count, re-enable the PDO.  `copyMappingSubs` is its step 6: plain
local-to-remote copies of the listed mapping sub-indices, in list order. -/
def copyMappingSubs (env : ConfigEnv) (pdoMappingIndex : Nat) : List Nat → ConfigM Unit
  | [] => pureM ()
  | s :: rest =>
    bindM (copyObject env pdoMappingIndex s false) fun _ =>
      copyMappingSubs env pdoMappingIndex rest

/-- Modelled from the spec: the whole eight-step PDO activation protocol of
spec §4.1 as a linear sequence of the primitive engine steps. -/
def pdoActivationProtocol (env : ConfigEnv) (index : Nat) (mappingSubs : List Nat) :
    ConfigM Unit :=
  bindM (readRemoteSdo env index 1) fun valueFromDevice =>
  bindM (setObject env index 1 (valueFromDevice ||| 0x80000000)) fun _ =>
  bindM (copyObject env index 2 false) fun _ =>
  bindM (copyObject env index 3 true) fun _ =>
  bindM (setObject env (index + 0x200) 0 0) fun _ =>
  bindM (copyMappingSubs env (index + 0x200) mappingSubs) fun _ =>
  bindM (copyObject env (index + 0x200) 0 false) fun _ =>
  copyObject env index 1 false

/-- The value stored in the local dictionary (0 as placeholder on error). -/
def localValD (env : ConfigEnv) (index subIndex : Nat) : Nat :=
  match env.localRead index subIndex with
  | .ok v => v
  | .error _ => 0

/-- A local-to-remote copy of `(index, subIndex)` succeeds under `env`. -/
abbrev copySucceeds (env : ConfigEnv) (index subIndex : Nat) : Prop :=
  ∃ v, env.localRead index subIndex = .ok v ∧ env.remoteWrite index subIndex v = none

/-- Concrete environment in which every operation succeeds: local values are
`index + subIndex`, every declared type is UNSIGNED32. -/
def envAllOk : ConfigEnv where
  localRead := fun index subIndex => .ok (index + subIndex)
  getTypeOfObject := fun _ _ => CO_DEFTYPE_UNSIGNED32
  remoteRead := fun index subIndex => .ok (index + subIndex)
  remoteWrite := fun _ _ _ => none

/-- Like `envAllOk`, but objects at sub-index 2 declare the unsupported type
code 0x0009 (VISIBLE_STRING). -/
def envStringType : ConfigEnv where
  localRead := fun index subIndex => .ok (index + subIndex)
  getTypeOfObject := fun _ subIndex => if subIndex = 2 then 0x0009 else CO_DEFTYPE_UNSIGNED32
  remoteRead := fun index subIndex => .ok (index + subIndex)
  remoteWrite := fun _ _ _ => none

/-- Like `envAllOk`, but local reads of sub-index 3 fail with code 5. -/
def envInhibitMissing : ConfigEnv where
  localRead := fun index subIndex => if subIndex = 3 then .error 5 else .ok (index + subIndex)
  getTypeOfObject := fun _ _ => CO_DEFTYPE_UNSIGNED32
  remoteRead := fun index subIndex => .ok (index + subIndex)
  remoteWrite := fun _ _ _ => none

/-- Like `envAllOk`, but local reads of sub-index 3 fail with the CANopen
"object does not exist" code 0x06020000. -/
def envInhibitAbsent : ConfigEnv where
  localRead := fun index subIndex =>
    if subIndex = 3 then .error 0x6020000 else .ok (index + subIndex)
  getTypeOfObject := fun _ _ => CO_DEFTYPE_UNSIGNED32
  remoteRead := fun index subIndex => .ok (index + subIndex)
  remoteWrite := fun _ _ _ => none

theorem bindM_pureM {α β : Type} (a : α) (f : α → ConfigM β) : bindM (pureM a) f = f a := by
  simp [bindM, pureM]

theorem bindM_assoc {α β γ : Type} (x : ConfigM α) (f : α → ConfigM β) (g : β → ConfigM γ) :
    bindM (bindM x f) g = bindM x fun a => bindM (f a) g := by
  obtain ⟨t, r⟩ := x
  cases r with
  | error e => simp [bindM]
  | ok a =>
    rcases hfa : f a with ⟨t2, r2⟩
    cases r2 <;> simp [bindM, hfa, List.append_assoc]

theorem bindM_ok {α β : Type} (t : List SdoOp) (a : α) (f : α → ConfigM β) :
    bindM (t, .ok a) f = (t ++ (f a).1, (f a).2) := rfl

theorem bindM_error {α β : Type} (t : List SdoOp) (e : ConfigErrorCategory)
    (f : α → ConfigM β) : bindM (t, .error e) f = (t, .error e) := rfl

theorem copyObject_ok {env : ConfigEnv} {index subIndex : Nat} (ign : Bool)
    (h : copySucceeds env index subIndex) :
    copyObject env index subIndex ign =
      ([.writeRemote index subIndex (localValD env index subIndex)], .ok ()) := by
  obtain ⟨v, hr, hw⟩ := h
  simp [copyObject, localValD, hr, hw]

theorem copyMappingSubs_ok {env : ConfigEnv} {mi : Nat} :
    ∀ l : List Nat, (∀ s ∈ l, copySucceeds env mi s) →
      copyMappingSubs env mi l =
        (l.map fun s => SdoOp.writeRemote mi s (localValD env mi s), .ok ())
  | [], _ => rfl
  | s :: rest, h => by
    have hrest := copyMappingSubs_ok rest fun x hx => h x (by simp [hx])
    simp [copyMappingSubs, copyObject_ok false (h s (by simp)), hrest, bindM]

theorem configureParameterSDO_eq_copy {env : ConfigEnv} {index : Nat} :
    ∀ l : List Nat, (∀ s ∈ l, supportedCanopenType (env.getTypeOfObject index s)) →
      configureParameterSDO env index l = copyMappingSubs env index l
  | [], _ => rfl
  | s :: rest, h => by
    have hrest := configureParameterSDO_eq_copy rest fun x hx => h x (by simp [hx])
    simp only [configureParameterSDO, copyMappingSubs, configureParameterSub,
      if_pos (h s (by simp)), hrest]

theorem configureParameterSDO_append_ok {env : ConfigEnv} {index : Nat} :
    ∀ pre l : List Nat,
      (∀ s ∈ pre, supportedCanopenType (env.getTypeOfObject index s) ∧ copySucceeds env index s) →
      configureParameterSDO env index (pre ++ l) =
        ((pre.map fun s => SdoOp.writeRemote index s (localValD env index s)) ++
            (configureParameterSDO env index l).1,
          (configureParameterSDO env index l).2)
  | [], l, _ => by simp
  | s :: pre, l, h => by
    have hs := h s (by simp)
    have hrest := configureParameterSDO_append_ok pre l fun x hx => h x (by simp [hx])
    simp only [List.cons_append, configureParameterSDO, configureParameterSub,
      if_pos hs.1, copyObject_ok false hs.2, bindM]
    simp [hrest]

/-- Claim C6: with an installed clear-configuration strategy, completion with
"operation canceled" makes `OnConfig` report overall success without issuing
any SDO operation; any other non-zero completion code is surfaced immediately
without attempting configuration; completion with success runs the
configuration and reports its trace and outcome. -/
theorem C6_clear_strategy_gates_configuration (env : ConfigEnv)
    (sdosToConfigure : List (Nat × List Nat)) (ec : Nat) (hasBinaryDcfFile : Bool)
    (dcfDownloadResult : Nat) :
    (ec = operation_canceled →
      OnConfig env sdosToConfigure (some ec) hasBinaryDcfFile dcfDownloadResult =
        ([], .ok ())) ∧
    (ec ≠ operation_canceled → ec ≠ 0 →
      OnConfig env sdosToConfigure (some ec) hasBinaryDcfFile dcfDownloadResult =
        ([], .error (.clearConfig ec))) ∧
    (∀ t, configure env sdosToConfigure = (t, .ok ()) →
      OnConfig env sdosToConfigure (some 0) false dcfDownloadResult = (t, .ok ())) ∧
    (∀ t e, configure env sdosToConfigure = (t, .error e) →
      OnConfig env sdosToConfigure (some 0) false dcfDownloadResult =
        (t, .error (.config e))) := by
  refine ⟨fun hc => ?_, fun hc hz => ?_, fun t hcfg => ?_, fun t e hcfg => ?_⟩
  · simp [OnConfig, hc]
  · simp [OnConfig, hc, hz]
  · simp [OnConfig, operation_canceled, hcfg]
  · simp [OnConfig, operation_canceled, hcfg]

theorem C6_witness :
    OnConfig envAllOk [] (some operation_canceled) true 0 = ([], .ok ()) ∧
      OnConfig envAllOk [] (some 7) true 0 = ([], .error (.clearConfig 7)) ∧
      OnConfig envAllOk [] (some 0) false 0 = ([], .ok ()) :=
  ⟨(C6_clear_strategy_gates_configuration envAllOk [] operation_canceled true 0).1 rfl,
    (C6_clear_strategy_gates_configuration envAllOk [] 7 true 0).2.1 (by decide) (by decide),
    (C6_clear_strategy_gates_configuration envAllOk [] 0 false 0).2.2.1 [] rfl⟩

/-- Claim C7: a configured object (outside the PDO index ranges) with a
sub-index whose OD-declared type is not a supported primitive type aborts the
configuration with context {WRITE_REMOTE_SDO, index, subIndex, SdoErrc::DATA};
the sub-indices before it are written, no SDO is issued for the offending
sub-index, and neither the remaining sub-indices nor any later object are
processed. -/
theorem C7_unsupported_type_aborts (env : ConfigEnv)
    (sdosToConfigure moreObjs : List (Nat × List Nat)) (index : Nat)
    (pre : List Nat) (subIndex : Nat) (rest : List Nat)
    (hrange : index < 0x1400 ∨ 0x1BFF < index)
    (hpre : ∀ s ∈ pre,
      supportedCanopenType (env.getTypeOfObject index s) ∧ copySucceeds env index s)
    (hbad : ¬ supportedCanopenType (env.getTypeOfObject index subIndex)) :
    configureSDO env sdosToConfigure ((index, pre ++ subIndex :: rest) :: moreObjs) =
      ((pre.map fun s => SdoOp.writeRemote index s (localValD env index s)),
        .error ⟨.WRITE_REMOTE_SDO, index, subIndex, SDO_ERRC_DATA⟩) := by
  have h1 : ¬ (RECEIVE_PDO_CONTROL_START ≤ index ∧ index ≤ RECEIVE_PDO_CONTROL_END) := by
    simp only [RECEIVE_PDO_CONTROL_START, RECEIVE_PDO_CONTROL_END]
    omega
  have h2 : ¬ (TRANSMIT_PDO_CONTROL_START ≤ index ∧ index ≤ TRANSMIT_PDO_CONTROL_END) := by
    simp only [TRANSMIT_PDO_CONTROL_START, TRANSMIT_PDO_CONTROL_END]
    omega
  have h3 : ¬ (RECEIVE_PDO_MAPPING_START ≤ index ∧ index ≤ TRANSMIT_PDO_MAPPING_END) := by
    simp only [RECEIVE_PDO_MAPPING_START, TRANSMIT_PDO_MAPPING_END]
    omega
  simp only [configureSDO]
  rw [if_neg h1, if_neg h2, if_neg h3]
  rw [configureParameterSDO_append_ok pre (subIndex :: rest) hpre]
  simp only [configureParameterSDO, configureParameterSub, if_neg hbad]
  simp [bindM]

theorem C7_witness :
    configureSDO envStringType [] [(0x2000, [1] ++ 2 :: [5]), (0x2001, [1])] =
      (([1].map fun s => SdoOp.writeRemote 0x2000 s (localValD envStringType 0x2000 s)),
        .error ⟨.WRITE_REMOTE_SDO, 0x2000, 2, SDO_ERRC_DATA⟩) := by
  have h := C7_unsupported_type_aborts envStringType [] [(0x2001, [1])] 0x2000 [1] 2 [5]
    (by right; decide)
    (by intro s hs; simp at hs; subst hs; exact ⟨by decide, 0x2001, rfl, rfl⟩)
    (by decide)
  exact h

theorem writeMappings_eq_protocol (env : ConfigEnv)
    (sdosToConfigure : List (Nat × List Nat)) (mi : Nat) (rest : List Nat)
    (hfind : sdosToConfigure.find? (fun sdo => sdo.1 == mi) = some (mi, 0 :: rest))
    (htypes : ∀ s ∈ rest, supportedCanopenType (env.getTypeOfObject mi s)) :
    writeMappings env sdosToConfigure mi =
      bindM (copyMappingSubs env mi rest) fun _ => copyObject env mi 0 false := by
  unfold writeMappings
  rw [hfind]
  cases rest with
  | nil => simp [copyMappingSubs, bindM_pureM]
  | cons s more =>
    simp only [List.length_cons, List.drop_succ_cons, List.drop_zero]
    rw [if_pos (by omega), configureParameterSDO_eq_copy (s :: more) htypes]

/-- Claim C3: for a PDO control object at `index` whose mapping object at
`index + 0x200` is configured with sub-index 0 first and supported mapping
types, `configurePDO` runs exactly the linear eight-step activation protocol
(each step started only after the previous one completed, the first failing
step aborting with its own ConfigErrorCategory); when every step succeeds,
the issued SDO sequence is exactly: read remote `I:1`, write the read value
with bit 31 set back to `I:1`, copy `I:2`, copy `I:3`, write 0 to
`(I+0x200):0`, copy the mapping sub-indices above 0 in list order, copy
`(I+0x200):0`, copy `I:1`. -/
theorem C3_pdo_activation_sequence (env : ConfigEnv)
    (sdosToConfigure : List (Nat × List Nat)) (index : Nat) (rest : List Nat)
    (hfind : sdosToConfigure.find? (fun sdo => sdo.1 == index + 0x200) =
      some (index + 0x200, 0 :: rest))
    (htypes : ∀ s ∈ rest, supportedCanopenType (env.getTypeOfObject (index + 0x200) s)) :
    configurePDO env sdosToConfigure index = pdoActivationProtocol env index rest ∧
    (∀ v, env.remoteRead index 1 = .ok v →
      env.remoteWrite index 1 (v ||| 0x80000000) = none →
      copySucceeds env index 2 → copySucceeds env index 3 →
      env.remoteWrite (index + 0x200) 0 0 = none →
      (∀ s ∈ rest, copySucceeds env (index + 0x200) s) →
      copySucceeds env (index + 0x200) 0 → copySucceeds env index 1 →
      configurePDO env sdosToConfigure index =
        ([.readRemote index 1, .writeRemote index 1 (v ||| 0x80000000),
          .writeRemote index 2 (localValD env index 2),
          .writeRemote index 3 (localValD env index 3),
          .writeRemote (index + 0x200) 0 0] ++
          (rest.map fun s =>
            SdoOp.writeRemote (index + 0x200) s (localValD env (index + 0x200) s)) ++
          [.writeRemote (index + 0x200) 0 (localValD env (index + 0x200) 0),
            .writeRemote index 1 (localValD env index 1)],
          .ok ())) := by
  have hwm := writeMappings_eq_protocol env sdosToConfigure (index + 0x200) rest hfind htypes
  have hmain : configurePDO env sdosToConfigure index = pdoActivationProtocol env index rest := by
    simp only [configurePDO, pdoActivationProtocol, hwm, bindM_assoc]
  refine ⟨hmain, fun v hv hw1 hc2 hc3 hw0 hcm hc0 hc1 => ?_⟩
  rw [hmain]
  simp only [pdoActivationProtocol, readRemoteSdo, hv, setObject, hw1, hw0,
    copyObject_ok false hc2, copyObject_ok true hc3, copyObject_ok false hc0,
    copyObject_ok false hc1, copyMappingSubs_ok rest hcm]
  simp [bindM_ok, hw1]

theorem C3_witness :
    configurePDO envAllOk [(0x1600, [0, 1, 2])] 0x1400 =
      pdoActivationProtocol envAllOk 0x1400 [1, 2] ∧
      configurePDO envAllOk [(0x1600, [0, 1, 2])] 0x1400 =
        ([.readRemote 0x1400 1, .writeRemote 0x1400 1 (0x1401 ||| 0x80000000),
          .writeRemote 0x1400 2 (localValD envAllOk 0x1400 2),
          .writeRemote 0x1400 3 (localValD envAllOk 0x1400 3),
          .writeRemote (0x1400 + 0x200) 0 0] ++
          ([1, 2].map fun s =>
            SdoOp.writeRemote (0x1400 + 0x200) s (localValD envAllOk (0x1400 + 0x200) s)) ++
          [.writeRemote (0x1400 + 0x200) 0 (localValD envAllOk (0x1400 + 0x200) 0),
            .writeRemote 0x1400 1 (localValD envAllOk 0x1400 1)],
          .ok ()) := by
  have h := C3_pdo_activation_sequence envAllOk [(0x1600, [0, 1, 2])] 0x1400 [1, 2]
    rfl (fun s hs => Or.inr (Or.inr (Or.inr (Or.inr (Or.inr (Or.inr rfl))))))
  exact ⟨h.1, h.2 0x1401 rfl rfl ⟨0x1402, rfl, rfl⟩ ⟨0x1403, rfl, rfl⟩ rfl
    (fun s hs => ⟨0x1600 + s, rfl, rfl⟩) ⟨0x1600, rfl, rfl⟩ ⟨0x1401, rfl, rfl⟩⟩

/-- Claim C8: during the inhibit-time copy (local `I:3` to remote `I:3`) of
the PDO activation, a local read failing with code 0x06020000 or 0x06090011
completes the step successfully and the configuration continues; any other
local read error at that step aborts the `configurePDO` chain with a
`READ_LOCAL_VALUE` context for `(I, 3)` right after the first three steps. -/
theorem C8_inhibit_time_absent_subindex (env : ConfigEnv)
    (sdosToConfigure : List (Nat × List Nat)) (index e : Nat)
    (hl3 : env.localRead index 3 = .error e) :
    ((e = 0x6020000 ∨ e = 0x6090011) → copyObject env index 3 true = ([], .ok ())) ∧
    (e ≠ 0x6020000 → e ≠ 0x6090011 →
      ∀ v, env.remoteRead index 1 = .ok v →
        env.remoteWrite index 1 (v ||| 0x80000000) = none →
        copySucceeds env index 2 →
        configurePDO env sdosToConfigure index =
          ([.readRemote index 1, .writeRemote index 1 (v ||| 0x80000000),
            .writeRemote index 2 (localValD env index 2)],
            .error ⟨.READ_LOCAL_VALUE, index, 3, e⟩)) := by
  constructor
  · intro hcodes
    simp [copyObject, hl3, hcodes, pureM]
  · intro hne1 hne2 v hv hw hc2
    have habort : copyObject env index 3 true = ([], .error ⟨.READ_LOCAL_VALUE, index, 3, e⟩) := by
      simp [copyObject, hl3, hne1, hne2]
    simp [configurePDO, readRemoteSdo, setObject, hv, hw, copyObject_ok false hc2,
      habort, bindM]

theorem C8_witness :
    copyObject envInhibitAbsent 0x1400 3 true = ([], .ok ()) ∧
      configurePDO envInhibitMissing [] 0x1400 =
        ([.readRemote 0x1400 1, .writeRemote 0x1400 1 (0x1401 ||| 0x80000000),
          .writeRemote 0x1400 2 (localValD envInhibitMissing 0x1400 2)],
          .error ⟨.READ_LOCAL_VALUE, 0x1400, 3, 5⟩) :=
  ⟨(C8_inhibit_time_absent_subindex envInhibitAbsent [] 0x1400 0x6020000 rfl).1 (Or.inl rfl),
    (C8_inhibit_time_absent_subindex envInhibitMissing [] 0x1400 5 rfl).2
      (by decide) (by decide) 0x1401 rfl rfl ⟨0x1402, rfl, rfl⟩⟩

/-! ### Follower-relationship inference
(DCFDriver.cpp lines 253-285, DCFConfigMaster.cpp lines 60-81)

Each RPDO control object processed by `configureSDO` triggers
`configureFollowerRelationship(objectToSend)` with the driver's node ID and
the local COB-ID of that object (`m_config->Read<uint32_t>(index, 1) &
0x1FFFFFFF`).  The model folds the sequence of such (node ID, COB-ID) events
over the master's COB-ID registry and the per-driver follower slots. -/

def updateFn (f : Nat → Nat) (a b : Nat) : Nat → Nat := fun x => if x = a then b else f x

/-- The master's COB-ID registry (`m_firstNodeIDUsing_RPDO_COB_ID`, with
`getFirstNodeIDUsing_RPDO_COB_ID` returning 0 for an absent entry) and the
per-driver slots `m_followingNodeID` / `m_followsNodeID` indexed by node ID. -/
structure FollowerState where
  firstNodeIDUsing_RPDO_COB_ID : Nat → Nat
  followingNodeID : Nat → Nat
  followsNodeID : Nat → Nat

def initialFollowerState : FollowerState :=
  ⟨fun _ => 0, fun _ => 0, fun _ => 0⟩

/-- `DCFDriver::configureFollowerRelationship(objectToSend)` (DCFDriver.cpp
lines 253-285) running for driver `nodeID` with local RPDO COB-ID `cobID`,
together with the registry accessors of DCFConfigMaster.cpp lines 69-81. -/
def configureFollowerRelationship (st : FollowerState) (nodeID cobID : Nat) : FollowerState :=
  let firstNodeIDforCOB_ID := st.firstNodeIDUsing_RPDO_COB_ID cobID
  if firstNodeIDforCOB_ID = 0 then
    { st with firstNodeIDUsing_RPDO_COB_ID :=
        updateFn st.firstNodeIDUsing_RPDO_COB_ID cobID nodeID }
  else if firstNodeIDforCOB_ID < nodeID then
    -- this instance becomes the following motor
    { st with followsNodeID := updateFn st.followsNodeID nodeID firstNodeIDforCOB_ID,
              followingNodeID := updateFn st.followingNodeID firstNodeIDforCOB_ID nodeID }
  else if nodeID < firstNodeIDforCOB_ID then
    -- this instance becomes the main motor
    { st with followingNodeID := updateFn st.followingNodeID nodeID firstNodeIDforCOB_ID,
              followsNodeID := updateFn st.followsNodeID firstNodeIDforCOB_ID nodeID }
  else
    st

/-- Folding follower inference over the (node ID, COB-ID) events in
processing order. -/
def runFollowerInference (events : List (Nat × Nat)) : FollowerState :=
  events.foldl (fun st e => configureFollowerRelationship st e.1 e.2) initialFollowerState

/-- Claim C4 counterexample, both conjuncts of the claimed invariant failing
at explicit inputs.

First input: nodes 1, 2 and 3 all claim RPDO COB-ID 0x203.  After inference,
driver 2 has `followsNodeID = 1` but driver 1 has `followingNodeID = 3`, so
`a.follows == b.id` holds for the pair (2, 1) while `b.following == a.id`
does not — the biconditional fails as soon as three nodes claim the same
COB-ID, because the third claimant overwrites the first node's `following`
slot.

Second input: driver 2 has two RPDO control objects with COB-IDs 0x205 and
0x206 (one inference event per RPDO control object, DCFDriver.cpp lines
104-107), claiming both first; driver 1 then shares 0x205 and driver 3
shares 0x206, so each COB-ID is claimed by exactly two drivers.  Driver 2
ends with `followsNodeID = 1` and `followingNodeID = 3` both set — "no
driver has both its follows slot and its following slot set" fails. -/
theorem C4_counterexample_three_claimants_and_chain :
    ((runFollowerInference [(1, 0x203), (2, 0x203), (3, 0x203)]).followsNodeID 2 = 1 ∧
      (runFollowerInference [(1, 0x203), (2, 0x203), (3, 0x203)]).followingNodeID 1 = 3 ∧
      (3 : Nat) ≠ 2) ∧
    ((runFollowerInference [(2, 0x205), (2, 0x206), (1, 0x205), (3, 0x206)]).followsNodeID 2
        = 1 ∧
      (runFollowerInference [(2, 0x205), (2, 0x206), (1, 0x205), (3, 0x206)]).followingNodeID 2
        = 3 ∧
      (1 : Nat) ≠ 0 ∧ (3 : Nat) ≠ 0) := by
  refine ⟨⟨?_, ?_, by decide⟩, ⟨?_, ?_, by decide, by decide⟩⟩ <;> rfl

theorem count_one_mem {l : List (Nat × Nat)} {b : Nat × Nat} {c : Nat}
    (hb : b ∈ l) (hfb : b.2 = c) : 1 ≤ (l.map Prod.snd).count c :=
  List.count_pos_iff.2 (List.mem_map.2 ⟨b, hb, hfb⟩)

theorem count_two_mem {a b : Nat × Nat} {c : Nat} :
    ∀ {l : List (Nat × Nat)}, a ∈ l → b ∈ l → a ≠ b → a.2 = c → b.2 = c →
      2 ≤ (l.map Prod.snd).count c := by
  intro l
  induction l with
  | nil => intro ha; cases ha
  | cons x l ih =>
    intro ha hb hab hfa hfb
    rcases List.mem_cons.1 ha with hax | hal
    · have hbl : b ∈ l := by
        rcases List.mem_cons.1 hb with hbx | hbl
        · exact absurd (hax.trans hbx.symm) hab
        · exact hbl
      have h1 := count_one_mem hbl hfb
      simp only [List.map_cons, List.count_cons, ← hax, hfa]
      have h2 : (if (c == c) = true then 1 else 0) = 1 := by simp
      omega
    · rcases List.mem_cons.1 hb with hbx | hbl
      · have h1 := count_one_mem hal hfa
        simp only [List.map_cons, List.count_cons, ← hbx, hfb]
        have h2 : (if (c == c) = true then 1 else 0) = 1 := by simp
        omega
      · have h2 := ih hal hbl hab hfa hfb
        simp only [List.map_cons, List.count_cons]
        omega

/-- The induction invariant for follower inference: `st` is the state after
processing some prefix of a well-formed event list and `evs` the remaining
events. -/
structure InvFS (st : FollowerState) (evs : List (Nat × Nat)) : Prop where
  pair : ∀ a b, 1 ≤ a → 1 ≤ b → (st.followsNodeID a = b ↔ st.followingNodeID b = a)
  main_lt : ∀ a, st.followsNodeID a ≠ 0 → st.followsNodeID a < a
  not_both : ∀ a, ¬(st.followsNodeID a ≠ 0 ∧ st.followingNodeID a ≠ 0)
  zero_slot : st.followsNodeID 0 = 0 ∧ st.followingNodeID 0 = 0
  fresh : ∀ e ∈ evs, st.followsNodeID e.1 = 0 ∧ st.followingNodeID e.1 = 0 ∧ 1 ≤ e.1
  claimed : ∀ e ∈ evs, st.firstNodeIDUsing_RPDO_COB_ID e.2 ≠ 0 →
    1 ≤ st.firstNodeIDUsing_RPDO_COB_ID e.2 ∧
      st.followsNodeID (st.firstNodeIDUsing_RPDO_COB_ID e.2) = 0 ∧
      st.followingNodeID (st.firstNodeIDUsing_RPDO_COB_ID e.2) = 0 ∧
      ∀ e2 ∈ evs, e2.2 = e.2 → e2 = e
  no_reg_pending : ∀ e ∈ evs, ∀ c, st.firstNodeIDUsing_RPDO_COB_ID c ≠ e.1
  reg_inj : ∀ c c2, st.firstNodeIDUsing_RPDO_COB_ID c ≠ 0 →
    st.firstNodeIDUsing_RPDO_COB_ID c = st.firstNodeIDUsing_RPDO_COB_ID c2 → c = c2
  cob_bound : ∀ e ∈ evs, st.firstNodeIDUsing_RPDO_COB_ID e.2 = 0 →
    ((evs.map Prod.snd).count e.2 ≤ 2)
  nodes_nodup : (evs.map Prod.fst).Nodup

theorem invFS_init (events : List (Nat × Nat))
    (hpos : ∀ e ∈ events, 1 ≤ e.1)
    (hnodes : (events.map Prod.fst).Nodup)
    (hcob : ∀ c, (events.map Prod.snd).count c ≤ 2) :
    InvFS initialFollowerState events := by
  refine ⟨?_, ?_, ?_, ⟨rfl, rfl⟩, ?_, ?_, ?_, ?_, ?_, hnodes⟩
  · intro a b ha hb
    simp only [initialFollowerState]
    omega
  · intro a h
    exact absurd rfl h
  · intro a h
    exact absurd rfl h.1
  · intro e he
    exact ⟨rfl, rfl, hpos e he⟩
  · intro e _ h
    exact absurd rfl h
  · intro e he c
    have := hpos e he
    simp only [initialFollowerState]
    omega
  · intro c c2 h
    exact absurd rfl h
  · intro e _ _
    exact hcob e.2

theorem updateFn_same (f : Nat → Nat) (a b : Nat) : updateFn f a b a = b := by
  simp [updateFn]

theorem updateFn_other (f : Nat → Nat) (a b x : Nat) (h : x ≠ a) : updateFn f a b x = f x := by
  simp [updateFn, h]

theorem invFS_step {st : FollowerState} {n c : Nat} {evs : List (Nat × Nat)}
    (h : InvFS st ((n, c) :: evs)) :
    InvFS (configureFollowerRelationship st n c) evs := by
  have hmem : (n, c) ∈ (n, c) :: evs := List.mem_cons_self _ _
  have hfn : st.followsNodeID n = 0 := (h.fresh _ hmem).1
  have hgn : st.followingNodeID n = 0 := (h.fresh _ hmem).2.1
  have hn1 : 1 ≤ n := (h.fresh _ hmem).2.2
  have hregn : ∀ c2, st.firstNodeIDUsing_RPDO_COB_ID c2 ≠ n := h.no_reg_pending _ hmem
  have hnodupTail : (evs.map Prod.fst).Nodup := (List.nodup_cons.1 h.nodes_nodup).2
  have hnNotTail : n ∉ evs.map Prod.fst := (List.nodup_cons.1 h.nodes_nodup).1
  have hTailNe : ∀ e ∈ evs, e.1 ≠ n := by
    intro e he hne
    exact hnNotTail (hne ▸ List.mem_map_of_mem Prod.fst he)
  simp only [configureFollowerRelationship]
  by_cases hf0 : st.firstNodeIDUsing_RPDO_COB_ID c = 0
  · -- first claim of this COB-ID: only the registry changes
    rw [if_pos hf0]
    refine ⟨h.pair, h.main_lt, h.not_both, h.zero_slot, ?_, ?_, ?_, ?_, ?_, hnodupTail⟩
    · exact fun e he => h.fresh e (List.mem_cons_of_mem _ he)
    · intro e he hr
      by_cases hec : e.2 = c
      · have hrv : updateFn st.firstNodeIDUsing_RPDO_COB_ID c n e.2 = n := by
          simp [updateFn, hec]
        dsimp only at hr ⊢
        rw [hrv]
        refine ⟨hn1, hfn, hgn, ?_⟩
        intro e2 he2 hee
        by_contra hne
        have hcount := h.cob_bound _ hmem hf0
        dsimp only at hcount
        have h2 : 2 ≤ (evs.map Prod.snd).count c :=
          count_two_mem he2 he hne (hee.trans hec) hec
        have hcnt : (((n, c) :: evs).map Prod.snd).count c =
            (evs.map Prod.snd).count c + 1 := by
          simp [List.count_cons]
        omega
      · have hrv : updateFn st.firstNodeIDUsing_RPDO_COB_ID c n e.2 =
            st.firstNodeIDUsing_RPDO_COB_ID e.2 := updateFn_other _ _ _ _ hec
        dsimp only at hr ⊢
        rw [hrv] at hr ⊢
        obtain ⟨q1, q2, q3, q4⟩ := h.claimed e (List.mem_cons_of_mem _ he) hr
        exact ⟨q1, q2, q3, fun e2 he2 hx => q4 e2 (List.mem_cons_of_mem _ he2) hx⟩
    · intro e he c2
      dsimp only
      by_cases hc2 : c2 = c
      · rw [hc2, updateFn_same]
        exact (hTailNe e he).symm
      · rw [updateFn_other _ _ _ _ hc2]
        exact h.no_reg_pending e (List.mem_cons_of_mem _ he) c2
    · intro c1 c2 h1 h2
      dsimp only at h1 h2
      by_cases hc1 : c1 = c <;> by_cases hc2 : c2 = c
      · rw [hc1, hc2]
      · rw [hc1, updateFn_same] at h2
        rw [updateFn_other _ _ _ _ hc2] at h2
        exact absurd h2.symm (hregn c2)
      · rw [hc2, updateFn_same] at h2
        rw [updateFn_other _ _ _ _ hc1] at h1 h2
        exact absurd h2 (hregn c1)
      · rw [updateFn_other _ _ _ _ hc1] at h1 h2
        rw [updateFn_other _ _ _ _ hc2] at h2
        exact h.reg_inj c1 c2 h1 h2
    · intro e he hr0
      dsimp only at hr0
      have hec : e.2 ≠ c := by
        intro hh
        rw [hh, updateFn_same] at hr0
        omega
      rw [updateFn_other _ _ _ _ hec] at hr0
      have hb := h.cob_bound e (List.mem_cons_of_mem _ he) hr0
      have hcnt : (((n, c) :: evs).map Prod.snd).count e.2 =
          (evs.map Prod.snd).count e.2 := by
        simp [List.count_cons, hec]
      omega
  · rw [if_neg hf0]
    obtain ⟨hf1, hff, hgf, huniq⟩ := h.claimed _ hmem hf0
    have hfne : st.firstNodeIDUsing_RPDO_COB_ID c ≠ n := hregn c
    have hrne : ∀ e ∈ evs, st.firstNodeIDUsing_RPDO_COB_ID e.2 ≠ 0 →
        st.firstNodeIDUsing_RPDO_COB_ID e.2 ≠ st.firstNodeIDUsing_RPDO_COB_ID c := by
      intro e he hr hh
      have hce : e.2 = c := h.reg_inj e.2 c hr hh
      have heq := huniq e (List.mem_cons_of_mem _ he) hce
      exact hTailNe e he (by rw [heq])
    by_cases hlt1 : st.firstNodeIDUsing_RPDO_COB_ID c < n
    · -- this node becomes the follower of f
      rw [if_pos hlt1]
      set f := st.firstNodeIDUsing_RPDO_COB_ID c with hfdef
      refine ⟨?_, ?_, ?_, ?_, ?_, ?_, ?_, h.reg_inj, ?_, hnodupTail⟩
      · intro a b ha hb
        dsimp only
        constructor
        · intro hab
          by_cases han : a = n
          · rw [han, updateFn_same] at hab
            rw [← hab, updateFn_same, han]
          · rw [updateFn_other _ _ _ _ han] at hab
            by_cases hbf : b = f
            · exfalso
              have := (h.pair a b ha hb).1 hab
              rw [hbf, hgf] at this
              omega
            · rw [updateFn_other _ _ _ _ hbf]
              exact (h.pair a b ha hb).1 hab
        · intro hba
          by_cases hbf : b = f
          · rw [hbf, updateFn_same] at hba
            rw [← hba, updateFn_same, hbf]
          · rw [updateFn_other _ _ _ _ hbf] at hba
            by_cases han : a = n
            · exfalso
              have := (h.pair a b ha hb).2 hba
              rw [han, hfn] at this
              omega
            · rw [updateFn_other _ _ _ _ han]
              exact (h.pair a b ha hb).2 hba
      · intro a hne
        dsimp only at hne ⊢
        by_cases han : a = n
        · rw [han, updateFn_same]
          rw [han] at hne
          exact hlt1
        · rw [updateFn_other _ _ _ _ han] at hne ⊢
          exact h.main_lt a hne
      · intro a hc2
        dsimp only at hc2
        obtain ⟨ha1, ha2⟩ := hc2
        by_cases han : a = n
        · rw [han, updateFn_other _ _ _ _ (Ne.symm hfne)] at ha2
          exact ha2 hgn
        · rw [updateFn_other _ _ _ _ han] at ha1
          by_cases haf : a = f
          · rw [haf, hff] at ha1
            exact ha1 rfl
          · rw [updateFn_other _ _ _ _ haf] at ha2
            exact h.not_both a ⟨ha1, ha2⟩
      · constructor
        · dsimp only
          rw [updateFn_other _ _ _ _ (by omega : (0 : Nat) ≠ n)]
          exact h.zero_slot.1
        · dsimp only
          rw [updateFn_other _ _ _ _ (by omega : (0 : Nat) ≠ f)]
          exact h.zero_slot.2
      · intro e he
        have h1 := h.fresh e (List.mem_cons_of_mem _ he)
        have hen : e.1 ≠ n := hTailNe e he
        have hef : e.1 ≠ f := by
          intro hh
          exact h.no_reg_pending e (List.mem_cons_of_mem _ he) c (by rw [← hfdef, hh])
        dsimp only
        rw [updateFn_other _ _ _ _ hen, updateFn_other _ _ _ _ hef]
        exact h1
      · intro e he hr
        dsimp only at hr ⊢
        obtain ⟨q1, q2, q3, q4⟩ := h.claimed e (List.mem_cons_of_mem _ he) hr
        have hrn : st.firstNodeIDUsing_RPDO_COB_ID e.2 ≠ n := hregn e.2
        have hrf : st.firstNodeIDUsing_RPDO_COB_ID e.2 ≠ f := hrne e he hr
        rw [updateFn_other _ _ _ _ hrn, updateFn_other _ _ _ _ hrf]
        exact ⟨q1, q2, q3, fun e2 he2 hx => q4 e2 (List.mem_cons_of_mem _ he2) hx⟩
      · exact fun e he c2 => h.no_reg_pending e (List.mem_cons_of_mem _ he) c2
      · intro e he hr0
        have hb := h.cob_bound e (List.mem_cons_of_mem _ he) hr0
        have hec : e.2 ≠ c := by
          intro hh
          rw [hh] at hr0
          exact hf0 hr0
        have hcnt : (((n, c) :: evs).map Prod.snd).count e.2 =
            (evs.map Prod.snd).count e.2 := by
          simp [List.count_cons, hec]
        omega
    · have hlt2 : n < st.firstNodeIDUsing_RPDO_COB_ID c := by
        have := hfne
        omega
      rw [if_neg hlt1, if_pos hlt2]
      set f := st.firstNodeIDUsing_RPDO_COB_ID c with hfdef
      refine ⟨?_, ?_, ?_, ?_, ?_, ?_, ?_, h.reg_inj, ?_, hnodupTail⟩
      · intro a b ha hb
        dsimp only
        constructor
        · intro hab
          by_cases haf : a = f
          · rw [haf, updateFn_same] at hab
            rw [← hab, updateFn_same, haf]
          · rw [updateFn_other _ _ _ _ haf] at hab
            by_cases hbn : b = n
            · exfalso
              have := (h.pair a b ha hb).1 hab
              rw [hbn, hgn] at this
              omega
            · rw [updateFn_other _ _ _ _ hbn]
              exact (h.pair a b ha hb).1 hab
        · intro hba
          by_cases hbn : b = n
          · rw [hbn, updateFn_same] at hba
            rw [← hba, updateFn_same, hbn]
          · rw [updateFn_other _ _ _ _ hbn] at hba
            by_cases haf : a = f
            · exfalso
              have := (h.pair a b ha hb).2 hba
              rw [haf, hff] at this
              omega
            · rw [updateFn_other _ _ _ _ haf]
              exact (h.pair a b ha hb).2 hba
      · intro a hne
        dsimp only at hne ⊢
        by_cases haf : a = f
        · rw [haf, updateFn_same]
          rw [haf] at hne
          exact hlt2
        · rw [updateFn_other _ _ _ _ haf] at hne ⊢
          exact h.main_lt a hne
      · intro a hc2
        dsimp only at hc2
        obtain ⟨ha1, ha2⟩ := hc2
        by_cases haf : a = f
        · rw [haf, updateFn_other _ _ _ _ hfne] at ha2
          exact ha2 hgf
        · rw [updateFn_other _ _ _ _ haf] at ha1
          by_cases han : a = n
          · rw [han, hfn] at ha1
            exact ha1 rfl
          · rw [updateFn_other _ _ _ _ han] at ha2
            exact h.not_both a ⟨ha1, ha2⟩
      · constructor
        · dsimp only
          rw [updateFn_other _ _ _ _ (by omega : (0 : Nat) ≠ f)]
          exact h.zero_slot.1
        · dsimp only
          rw [updateFn_other _ _ _ _ (by omega : (0 : Nat) ≠ n)]
          exact h.zero_slot.2
      · intro e he
        have h1 := h.fresh e (List.mem_cons_of_mem _ he)
        have hen : e.1 ≠ n := hTailNe e he
        have hef : e.1 ≠ f := by
          intro hh
          exact h.no_reg_pending e (List.mem_cons_of_mem _ he) c (by rw [← hfdef, hh])
        dsimp only
        rw [updateFn_other _ _ _ _ hef, updateFn_other _ _ _ _ hen]
        exact h1
      · intro e he hr
        dsimp only at hr ⊢
        obtain ⟨q1, q2, q3, q4⟩ := h.claimed e (List.mem_cons_of_mem _ he) hr
        have hrn : st.firstNodeIDUsing_RPDO_COB_ID e.2 ≠ n := hregn e.2
        have hrf : st.firstNodeIDUsing_RPDO_COB_ID e.2 ≠ f := hrne e he hr
        rw [updateFn_other _ _ _ _ hrf, updateFn_other _ _ _ _ hrn]
        exact ⟨q1, q2, q3, fun e2 he2 hx => q4 e2 (List.mem_cons_of_mem _ he2) hx⟩
      · exact fun e he c2 => h.no_reg_pending e (List.mem_cons_of_mem _ he) c2
      · intro e he hr0
        have hb := h.cob_bound e (List.mem_cons_of_mem _ he) hr0
        have hec : e.2 ≠ c := by
          intro hh
          rw [hh] at hr0
          exact hf0 hr0
        have hcnt : (((n, c) :: evs).map Prod.snd).count e.2 =
            (evs.map Prod.snd).count e.2 := by
          simp [List.count_cons, hec]
        omega

theorem invFS_run : ∀ (evs : List (Nat × Nat)) (st : FollowerState), InvFS st evs →
    InvFS (evs.foldl (fun s e => configureFollowerRelationship s e.1 e.2) st) []
  | [], _, h => h
  | e :: evs, st, h => by
    rw [List.foldl_cons]
    exact invFS_run evs _ (invFS_step h)

/-- Claim C4 (amended): provided every registered driver claims at most one
RPDO COB-ID and every COB-ID is claimed by at most two drivers, after
follower inference: `a.follows == b.id` iff `b.following == a.id` for every
pair of node IDs, the followed node is always the numerically smaller one of
a pair (so the smaller ID is the main and the larger the follower), and no
driver has both its follows slot and its following slot set.  Each of the
two hypotheses is forced by one input of the counterexample: the biconditional
fails with three claimants of one COB-ID, and the both-slots-clear property
fails when one driver claims two COB-IDs each shared with one other driver. -/
theorem C4_follower_invariant_amended (events : List (Nat × Nat))
    (hpos : ∀ e ∈ events, 1 ≤ e.1)
    (hnodes : (events.map Prod.fst).Nodup)
    (hcob : ∀ c, (events.map Prod.snd).count c ≤ 2) :
    (∀ a b, 1 ≤ a → 1 ≤ b →
      ((runFollowerInference events).followsNodeID a = b ↔
        (runFollowerInference events).followingNodeID b = a)) ∧
    (∀ a, (runFollowerInference events).followsNodeID a ≠ 0 →
      (runFollowerInference events).followsNodeID a < a) ∧
    (∀ b, (runFollowerInference events).followingNodeID b ≠ 0 →
      b < (runFollowerInference events).followingNodeID b) ∧
    (∀ a, ¬((runFollowerInference events).followsNodeID a ≠ 0 ∧
      (runFollowerInference events).followingNodeID a ≠ 0)) := by
  have hinv : InvFS (runFollowerInference events) [] :=
    invFS_run events initialFollowerState (invFS_init events hpos hnodes hcob)
  refine ⟨hinv.pair, hinv.main_lt, ?_, hinv.not_both⟩
  intro b hb
  by_cases hb0 : b = 0
  · rw [hb0] at hb
    exact absurd hinv.zero_slot.2 hb
  · have hb1 : 1 ≤ b := Nat.one_le_iff_ne_zero.2 hb0
    have ha1 : 1 ≤ (runFollowerInference events).followingNodeID b :=
      Nat.one_le_iff_ne_zero.2 hb
    have hfol : (runFollowerInference events).followsNodeID
        ((runFollowerInference events).followingNodeID b) = b :=
      (hinv.pair _ b ha1 hb1).2 rfl
    have hlt := hinv.main_lt ((runFollowerInference events).followingNodeID b)
      (by rw [hfol]; omega)
    rw [hfol] at hlt
    exact hlt

theorem C4_witness :
    (∀ a b, 1 ≤ a → 1 ≤ b →
      ((runFollowerInference [(1, 5), (2, 5)]).followsNodeID a = b ↔
        (runFollowerInference [(1, 5), (2, 5)]).followingNodeID b = a)) ∧
    (∀ a, (runFollowerInference [(1, 5), (2, 5)]).followsNodeID a ≠ 0 →
      (runFollowerInference [(1, 5), (2, 5)]).followsNodeID a < a) ∧
    (∀ b, (runFollowerInference [(1, 5), (2, 5)]).followingNodeID b ≠ 0 →
      b < (runFollowerInference [(1, 5), (2, 5)]).followingNodeID b) ∧
    (∀ a, ¬((runFollowerInference [(1, 5), (2, 5)]).followsNodeID a ≠ 0 ∧
      (runFollowerInference [(1, 5), (2, 5)]).followingNodeID a ≠ 0)) :=
  C4_follower_invariant_amended [(1, 5), (2, 5)] (by decide) (by decide)
    (fun c => le_trans (List.count_le_length _ _) (by decide))

/-! ### Boot milestone tracking (DCFConfigMaster.cpp lines 54-120)

`m_devicesToBoot` is a `std::set<uint8_t>`, modelled as a duplicate-free
list; `registerDriver` inserts each driver, `OnBoot` erases one entry per
successful boot, `reset` re-inserts every registered driver. -/

structure BootMaster where
  drivers : List Nat
  devicesToBoot : List Nat

/-- `DCFConfigMaster::OnBoot` (DCFConfigMaster.cpp lines 97-120) with an
installed boot-completed callback.  The returned list holds the arguments of
the `m_bootCompletedCallback` invocations in call order: the per-node call
`callback(id)` always happens; on a successful boot (`es = 0`) with a
non-empty pending set the node is erased (with only a warning when absent)
and `callback(0)` fires when the set empties.  The per-driver
`onSystemBootCompleted` calls are empty in MotorDriver and dropped. -/
def OnBoot (ms : BootMaster) (id es : Nat) : BootMaster × List Nat :=
  if es = 0 ∧ 0 < ms.devicesToBoot.length then
    let boot2 := if id ∈ ms.devicesToBoot then ms.devicesToBoot.erase id
      else ms.devicesToBoot
    if boot2.length = 0 then
      ({ ms with devicesToBoot := boot2 }, [id, 0])
    else
      ({ ms with devicesToBoot := boot2 }, [id])
  else
    (ms, [id])

/-- `DCFConfigMaster::reset` (DCFConfigMaster.cpp lines 83-90), restricted to
its pending-boot bookkeeping (the NMT broadcast has no effect on it). -/
def reset (ms : BootMaster) : BootMaster :=
  { ms with devicesToBoot := ms.drivers.foldl (fun s d => s.insert d) ms.devicesToBoot }

/-- A sequence of boot events `(node id, error status)` handled in order. -/
def runBoots (ms : BootMaster) : List (Nat × Nat) → BootMaster × List Nat
  | [] => (ms, [])
  | e :: evs =>
    let r := OnBoot ms e.1 e.2
    let r2 := runBoots r.1 evs
    (r2.1, r.2 ++ r2.2)

theorem OnBoot_cases (ms : BootMaster) (id es : Nat) :
    (OnBoot ms id es).2 = [id] ∨
      ((OnBoot ms id es).2 = [id, 0] ∧ (OnBoot ms id es).1.devicesToBoot = []) := by
  unfold OnBoot
  by_cases hg : es = 0 ∧ 0 < ms.devicesToBoot.length
  · rw [if_pos hg]
    by_cases hz :
        (if id ∈ ms.devicesToBoot then ms.devicesToBoot.erase id
          else ms.devicesToBoot).length = 0
    · right
      rw [if_pos hz]
      exact ⟨rfl, List.length_eq_zero.1 hz⟩
    · left
      rw [if_neg hz]
  · rw [if_neg hg]
    left
    rfl

theorem OnBoot_monotone (ms : BootMaster) (id es : Nat) :
    (OnBoot ms id es).1.devicesToBoot.length ≤ ms.devicesToBoot.length := by
  unfold OnBoot
  by_cases hg : es = 0 ∧ 0 < ms.devicesToBoot.length
  · rw [if_pos hg]
    have hle : (if id ∈ ms.devicesToBoot then ms.devicesToBoot.erase id
        else ms.devicesToBoot).length ≤ ms.devicesToBoot.length := by
      by_cases hmem : id ∈ ms.devicesToBoot
      · rw [if_pos hmem]
        exact (List.erase_sublist id ms.devicesToBoot).length_le
      · rw [if_neg hmem]
    by_cases hz : (if id ∈ ms.devicesToBoot then ms.devicesToBoot.erase id
        else ms.devicesToBoot).length = 0
    · rw [if_pos hz]
      exact hle
    · rw [if_neg hz]
      exact hle
  · rw [if_neg hg]

theorem OnBoot_empty (ms : BootMaster) (id es : Nat) (h : ms.devicesToBoot = []) :
    OnBoot ms id es = (ms, [id]) := by
  unfold OnBoot
  rw [if_neg]
  simp [h]

theorem runBoots_empty_no_fire (evs : List (Nat × Nat)) :
    ∀ ms : BootMaster, ms.devicesToBoot = [] → (∀ e ∈ evs, 1 ≤ e.1) →
      ((runBoots ms evs).2.count 0 = 0) := by
  induction evs with
  | nil => intro ms _ _; rfl
  | cons e evs ih =>
    intro ms hms hevs
    have h1 := OnBoot_empty ms e.1 e.2 hms
    have he1 : 1 ≤ e.1 := hevs e (List.mem_cons_self _ _)
    simp only [runBoots, h1]
    have h2 := ih ms hms fun x hx => hevs x (List.mem_cons_of_mem _ hx)
    simp [List.count_append, h2, List.count_cons]
    omega

theorem runBoots_fire_at_most_once (evs : List (Nat × Nat)) :
    ∀ ms : BootMaster, (∀ e ∈ evs, 1 ≤ e.1) → ((runBoots ms evs).2.count 0 ≤ 1) := by
  induction evs with
  | nil => intro ms _; simp [runBoots]
  | cons e evs ih =>
    intro ms hevs
    have he1 : 1 ≤ e.1 := hevs e (List.mem_cons_self _ _)
    have hrest : ∀ x ∈ evs, 1 ≤ x.1 := fun x hx => hevs x (List.mem_cons_of_mem _ hx)
    rcases OnBoot_cases ms e.1 e.2 with hc | ⟨hc, hempty⟩
    · have hcnt : List.count 0 [e.1] = 0 := by
        simp [List.count_cons]
        omega
      have := ih (OnBoot ms e.1 e.2).1 hrest
      simp only [runBoots, List.count_append, hc, hcnt]
      omega
    · have hcnt : List.count 0 [e.1, 0] = 1 := by
        simp [List.count_cons]
        omega
      have := runBoots_empty_no_fire evs (OnBoot ms e.1 e.2).1 hempty hrest
      simp only [runBoots, List.count_append, hc, hcnt, this]
      omega

theorem mem_foldl_insert :
    ∀ (l s : List Nat) (x : Nat), x ∈ l ∨ x ∈ s →
      x ∈ l.foldl (fun a d => a.insert d) s
  | [], _, _, h => by
    rcases h with h | h
    · cases h
    · exact h
  | d :: l, s, x, h => by
    rw [List.foldl_cons]
    refine mem_foldl_insert l (s.insert d) x ?_
    rcases h with h | h
    · rcases List.mem_cons.1 h with h | h
      · right
        rw [h]
        exact List.mem_insert_self d s
      · left
        exact h
    · right
      exact List.mem_insert_of_mem h

/-- Claim C9: the pending-boot set size is monotone non-increasing under
`OnBoot`; a boot event for a node not (or no longer) in the pending-boot set
only fires the per-node callback, never the "all booted" callback(0); in any
event sequence of real node IDs (≥ 1) the callback(0) milestone fires at most
once (`reset` is required before it can fire again); and `reset` re-adds
every registered driver to the pending-boot set. -/
theorem C9_boot_milestone (ms : BootMaster) (id es : Nat) (evs : List (Nat × Nat))
    (hid : id ∉ ms.devicesToBoot) (hevs : ∀ e ∈ evs, 1 ≤ e.1) :
    (∀ i e, (OnBoot ms i e).1.devicesToBoot.length ≤ ms.devicesToBoot.length) ∧
    (OnBoot ms id es).2 = [id] ∧
    (runBoots ms evs).2.count 0 ≤ 1 ∧
    ∀ d ∈ ms.drivers, d ∈ (reset ms).devicesToBoot := by
  refine ⟨fun i e => OnBoot_monotone ms i e, ?_, runBoots_fire_at_most_once evs ms hevs, ?_⟩
  · unfold OnBoot
    by_cases hg : es = 0 ∧ 0 < ms.devicesToBoot.length
    · rw [if_pos hg]
      have hb : (if id ∈ ms.devicesToBoot then ms.devicesToBoot.erase id
          else ms.devicesToBoot) = ms.devicesToBoot := by
        rw [if_neg hid]
      rw [if_neg]
      rw [hb]
      omega
    · rw [if_neg hg]
  · intro d hd
    exact mem_foldl_insert ms.drivers ms.devicesToBoot d (Or.inl hd)

theorem C9_witness :
    (∀ i e,
      (OnBoot ⟨[3, 4], [4]⟩ i e).1.devicesToBoot.length ≤
        (BootMaster.devicesToBoot ⟨[3, 4], [4]⟩).length) ∧
    (OnBoot ⟨[3, 4], [4]⟩ 3 0).2 = [3] ∧
    (runBoots ⟨[3, 4], [4]⟩ [(4, 0), (4, 0)]).2.count 0 ≤ 1 ∧
    ∀ d ∈ [3, 4], d ∈ (reset ⟨[3, 4], [4]⟩).devicesToBoot :=
  C9_boot_milestone ⟨[3, 4], [4]⟩ 3 0 [(4, 0), (4, 0)] (by decide) (by decide)

end LelyExt
